import Mathlib

/-!
Shallow embedding of the tollbooth rate-limiting middleware (didip/tollbooth),
covering the key-derivation algorithm (BuildKeys), the IP-resolution helper
(libstring.RemoteIP), the token-bucket limiter (limiter.Limiter backed by
golang.org/x/time/rate and patrickmn/go-cache), the admission loop
(LimitByKeys / LimitByRequest / LimitHandler) and the fixed-window in-memory
counter store (storages.InMemory).

Conventions of the embedding:
- Go strings are Lean `String`s; Go `[]string` is `List String`; a Go map is
  an association list in one fixed iteration order (Go map iteration order is
  unspecified, so theorems quantify over the list).
- Wall-clock time and Go `time.Duration` are rationals measured in seconds;
  `time.Time` zero value is instant 0.
- Go float64 token counts are rationals (no rounding is relevant at the
  scales the claims quantify over).
- A Go slice-index panic is modelled by `Option`: `none` is a panic,
  propagated by the callers.
- Stateful methods are explicit state passing: a method that mutates the
  limiter takes and returns the `Limiter` value.
-/

namespace Tollbooth

/-- Go `unicode.IsSpace` restricted to the ASCII range (the inputs of interest
are IP addresses and header fragments, which are ASCII). -/
def isSpaceChar (c : Char) : Bool :=
  c = ' ' || c = '\t' || c = '\n' || c = '\x0b' || c = '\x0c' || c = '\r'

/-- Go `strings.TrimSpace`: drop leading and trailing white space. -/
def trimSpace (s : String) : String :=
  String.mk (((s.data.dropWhile isSpaceChar).reverse.dropWhile isSpaceChar).reverse)

/-- Character-level worker for Go `strings.Split(s, ",")`. Splitting the empty
list yields one empty group, matching Go's `Split("", ",") = [""]`. -/
def splitCommaChars : List Char → List (List Char)
  | [] => [[]]
  | c :: cs =>
    let r := splitCommaChars cs
    if c = ',' then [] :: r
    else
      match r with
      | [] => [[c]]
      | g :: gs => (c :: g) :: gs

/-- Go `strings.Split(s, ",")`. -/
def goSplitComma (s : String) : List String :=
  (splitCommaChars s.data).map String.mk

/-- Go slice indexing `xs[i]` with an `int` index: `none` is the
index-out-of-range panic (negative index or index at least `len`). -/
def goIndex (xs : List String) (i : ℤ) : Option String :=
  if 0 ≤ i then xs.get? i.toNat else none

/-- From src libstring: `StringInSlice` finds needle in a slice of strings. -/
def StringInSlice (sliceString : List String) (needle : String) : Bool :=
  sliceString.any (fun b => b = needle)

/-- From src libstring: `ipAddrFromRemoteAddr` drops everything from the last
colon on (`strings.LastIndex(s, ":")`); the string is returned unchanged when
it has no colon. -/
def ipAddrFromRemoteAddr (s : String) : String :=
  match s.data.reverse.dropWhile (fun c => !(c = ':')) with
  | [] => s
  | _ :: rest => String.mk rest.reverse

/-- The request attributes the embedded code reads from `http.Request`.
`headers` models `r.Header.Get` lookups (first entry with the given name, the
empty string when absent; Go's MIME canonicalization of names is left to the
caller choosing canonical names). `basicAuth` is `some username` exactly when
`r.BasicAuth()` returns `ok` with that username. -/
structure Request where
  method : String
  path : String
  remoteAddr : String
  headers : List (String × String)
  basicAuth : Option String

/-- Go `r.Header.Get(k)`: first value stored under `k`, or the empty string. -/
def headerGet (r : Request) (k : String) : String :=
  match r.headers.find? (fun p => p.1 = k) with
  | some p => p.2
  | none => ""

/-- Loop body of src libstring `RemoteIP` (the `for _, lookup := range
ipLookups` loop): "RemoteAddr" always returns the port-stripped remote
address; "X-Forwarded-For" with non-empty header splits on commas, trims, and
indexes at `len-1-idx` (or `-1-idx` for negative `idx`) with no clamping, so
an out-of-range offset is a panic (`none`); "X-Real-IP" returns the header
when non-empty; anything else falls through to the next lookup; an exhausted
list returns the empty string. -/
def remoteIPLoop (idx : ℤ) (r : Request) : List String → Option String
  | [] => some ""
  | lookup :: rest =>
    if lookup = "RemoteAddr" then
      some (ipAddrFromRemoteAddr r.remoteAddr)
    else if lookup = "X-Forwarded-For" ∧ headerGet r "X-Forwarded-For" ≠ "" then
      let parts := (goSplitComma (headerGet r "X-Forwarded-For")).map trimSpace
      if idx < 0 then goIndex parts (-1 - idx)
      else goIndex parts ((parts.length : ℤ) - 1 - idx)
    else if lookup = "X-Real-IP" ∧ headerGet r "X-Real-IP" ≠ "" then
      some (headerGet r "X-Real-IP")
    else
      remoteIPLoop idx r rest

/-- From src libstring: `RemoteIP(ipLookups, xForwardedForIndex, r)` finds the
client IP address for the request. `none` models the Go panic on an
out-of-range X-Forwarded-For offset. -/
def RemoteIP (ipLookups : List String) (xForwardedForIndex : ℤ) (r : Request) :
    Option String :=
  remoteIPLoop xForwardedForIndex r ipLookups

/-- The token bucket of golang.org/x/time/rate: `limit` tokens per second,
capacity `burst`, current `tokens`, and `last`, the instant of the last state
update. `rate.NewLimiter` leaves `tokens` and `last` at their zero values, so
the first use refills from instant 0. -/
structure RateLimiter where
  limit : ℚ
  burst : ℤ
  tokens : ℚ
  last : ℚ

/-- Constructor of golang.org/x/time/rate: `rate.NewLimiter(r, b)`. -/
def rateNewLimiter (r : ℚ) (b : ℤ) : RateLimiter :=
  { limit := r, burst := b, tokens := 0, last := 0 }

/-- Conversion of golang.org/x/time/rate: `rate.Every(interval)` is the limit
of one token per `interval` (in seconds). -/
def rateEvery (interval : ℚ) : ℚ :=
  1 / interval

/-- The refill step of golang.org/x/time/rate `Limiter.advance`: tokens grown
by elapsed time times the limit, capped at the burst. -/
def advance (l : RateLimiter) (now : ℚ) : ℚ :=
  min (l.burst : ℚ) (l.tokens + (now - l.last) * l.limit)

/-- The `AllowN(now, 1)` call of golang.org/x/time/rate: refill, then consume
one token when one is available (`n <= burst` and no wait needed); on failure
the limiter state is left unchanged. -/
def allowOne (l : RateLimiter) (now : ℚ) : Bool × RateLimiter :=
  let tokens := advance l now - 1
  if 1 ≤ l.burst ∧ 0 ≤ tokens then
    (true, { l with tokens := tokens, last := now })
  else
    (false, l)

/-- An entry of a patrickmn/go-cache cache: the stored object and its absolute
expiration instant, with 0 meaning "no expiration". -/
structure CacheItem where
  bucket : RateLimiter
  expiration : ℚ

/-- Association-list lookup standing for a Go map read. -/
def assocGet {α : Type} : List (String × α) → String → Option α
  | [], _ => none
  | p :: rest, k => if p.1 = k then some p.2 else assocGet rest k

/-- Association-list write standing for a Go map write: replace the first
binding of the key, or append a new binding. -/
def assocSet {α : Type} (xs : List (String × α)) (k : String) (v : α) :
    List (String × α) :=
  match xs with
  | [] => [(k, v)]
  | p :: rest => if p.1 = k then (k, v) :: rest else p :: assocSet rest k v

/-- The go-cache `Get`: a hit whose expiration is positive and strictly in the
past counts as a miss (lazy expiration on read). -/
def cacheGet (xs : List (String × CacheItem)) (k : String) (now : ℚ) :
    Option CacheItem :=
  match assocGet xs k with
  | some it => if 0 < it.expiration ∧ it.expiration < now then none else some it
  | none => none

/-- The go-cache `Set` with duration `d`: `d = 0` (DefaultExpiration) means
the cache-wide default TTL; a positive effective TTL stamps expiration
`now + ttl`, otherwise the entry never expires. -/
def cacheSet (xs : List (String × CacheItem)) (defaultTTL : ℚ) (k : String)
    (b : RateLimiter) (d : ℚ) (now : ℚ) : List (String × CacheItem) :=
  let eff := if d = 0 then defaultTTL else d
  assocSet xs k { bucket := b, expiration := if 0 < eff then now + eff else 0 }

/-- The limiter configuration and state of src limiter/limiter.go, together
with the `forwardedForIndexFromBehind` option its tollbooth.go callers read
through `GetForwardedForIndexFromBehind`. Gettable collections (`methods`
with its Go nil-vs-set distinction, `headers`, `basicAuthUsers`) are stored
directly; `tokenBuckets` is the go-cache of token buckets and
`defaultExpirationTTL` its cache-wide TTL (already clamped by `New` to the
10-year default when unset). -/
structure Limiter where
  max : ℤ
  ttl : ℚ
  message : String
  messageContentType : String
  statusCode : ℤ
  ipLookups : List String
  forwardedForIndexFromBehind : ℤ
  methods : Option (List String)
  basicAuthUsers : List String
  headers : List (String × List String)
  defaultExpirationTTL : ℚ
  tokenBuckets : List (String × CacheItem)

/-- From src limiter/limiter.go: `New` with the given
`ExpirableOptions.DefaultExpirationTTL` (clamped to ten years when not
positive) and the documented defaults for message, content type, status code
and IP lookup order. -/
def New (defaultExpirationTTL : ℚ) : Limiter :=
  { max := 0
    ttl := 0
    message := "You have reached maximum request limit."
    messageContentType := "text/plain; charset=utf-8"
    statusCode := 429
    ipLookups := ["RemoteAddr", "X-Forwarded-For", "X-Real-IP"]
    forwardedForIndexFromBehind := 0
    methods := none
    basicAuthUsers := []
    headers := []
    defaultExpirationTTL :=
      if defaultExpirationTTL ≤ 0 then 315360000 else defaultExpirationTTL
    tokenBuckets := [] }

/-- From src limiter/limiter.go: `limitReachedWithTokenBucketTTL`. A missing
(or lazily expired) bucket for the key is created as
`rate.NewLimiter(rate.Every(ttl), int(max))` and stored with the requested
bucket TTL; the bucket for the key then consumes via `AllowN(now, 1)`, and
the method reports whether the limit was reached (the consume failed). The
second lookup coming back empty admits without consuming, as in the source.
This definition is the ensure step (the `if _, found := Get(key); !found`
block): the bucket map after the missing bucket is created and stored. -/
def bucketsAfterEnsure (l : Limiter) (key : String) (tokenBucketTTL : ℚ)
    (now : ℚ) : List (String × CacheItem) :=
  match cacheGet l.tokenBuckets key now with
  | some _ => l.tokenBuckets
  | none =>
    cacheSet l.tokenBuckets l.defaultExpirationTTL key
      (rateNewLimiter (rateEvery l.ttl) l.max) tokenBucketTTL now

/-- From src limiter/limiter.go: the body of `limitReachedWithTokenBucketTTL`
after the ensure step: look the bucket up again, consume via `AllowN(now, 1)`
and report whether the limit was reached. -/
def limitReachedWithTokenBucketTTL (l : Limiter) (key : String)
    (tokenBucketTTL : ℚ) (now : ℚ) : Bool × Limiter :=
  match cacheGet (bucketsAfterEnsure l key tokenBucketTTL now) key now with
  | none => (false, { l with tokenBuckets := bucketsAfterEnsure l key tokenBucketTTL now })
  | some item =>
    let step := allowOne item.bucket now
    (!step.1,
      { l with
          tokenBuckets :=
            assocSet (bucketsAfterEnsure l key tokenBucketTTL now) key
              { bucket := step.2, expiration := item.expiration } })

/-- From src limiter/limiter.go: `LimitReached` forwards to
`limitReachedWithTokenBucketTTL` with go-cache `DefaultExpiration` (0). -/
def LimitReached (l : Limiter) (key : String) (now : ℚ) : Bool × Limiter :=
  limitReachedWithTokenBucketTTL l key 0 now

/-- From src tollbooth.go `BuildKeys`: the `method` component is the request
method when the methods list is set (non-nil) and contains it, else empty. -/
def methodComponent (l : Limiter) (r : Request) : String :=
  match l.methods with
  | some ms => if StringInSlice ms r.method then r.method else ""
  | none => ""

/-- From src tollbooth.go `BuildKeys`: the `usernameToLimit` component is the
basic-auth username when basic-auth users are configured and the request
carries a listed username, else empty. -/
def usernameToLimit (l : Limiter) (r : Request) : String :=
  if 0 < l.basicAuthUsers.length then
    match r.basicAuth with
    | some u => if StringInSlice l.basicAuthUsers u then u else ""
    | none => ""
  else ""

/-- From src tollbooth.go `BuildKeys`: the `for headerKey, headerValues :=
range lmtHeaders` loop, one iteration order fixed by the association list. A
rule with no listed values matches any request carrying the header; a rule
with listed values matches when the request's header value is listed (the
inner loop appends the first listed value equal to the request's value and
breaks); each match emits one compound six-component tuple. -/
def headerTuples (r : Request) (remoteIP path m u : String) :
    List (String × List String) → List (List String)
  | [] => []
  | (headerKey, headerValues) :: rest =>
    (if headerValues.length = 0 ∧ headerGet r headerKey ≠ "" then
      [[remoteIP, path, m, headerKey, headerGet r headerKey, u]]
    else if 0 < headerValues.length ∧ headerGet r headerKey ≠ "" then
      match headerValues.find? (fun v => headerGet r headerKey = v) with
      | some v => [[remoteIP, path, m, headerKey, v, u]]
      | none => []
    else []) ++ headerTuples r remoteIP path m u rest

/-- From src tollbooth.go: `BuildKeys` generates the slice of key tuples for
the limiter and request. `none` propagates a `RemoteIP` panic; a blank
resolved IP short-circuits to no keys; with header rules set each matching
rule emits one compound tuple, otherwise exactly one tuple is emitted. -/
def BuildKeys (l : Limiter) (r : Request) : Option (List (List String)) :=
  match RemoteIP l.ipLookups l.forwardedForIndexFromBehind r with
  | none => none
  | some remoteIP =>
    if remoteIP = "" then some []
    else
      let m := methodComponent l r
      let u := usernameToLimit l r
      some
        (if 0 < l.headers.length then
          headerTuples r remoteIP r.path m u l.headers
        else
          [[remoteIP, r.path, m, "", "", u]])

/-- The HTTPError of src errors: message and status code. -/
structure HTTPError where
  message : String
  statusCode : ℤ

/-- Go `strings.Join(keys, "|")`. -/
def joinKey (keys : List String) : String :=
  String.intercalate "|" keys

/-- From src tollbooth.go: `LimitByKeys` joins the key parts with a pipe,
consumes from that bucket, and returns the configured message and status code
as an `HTTPError` when the limit was reached. -/
def LimitByKeys (l : Limiter) (keys : List String) (now : ℚ) :
    Option HTTPError × Limiter :=
  let step := LimitReached l (joinKey keys) now
  (if step.1 then some { message := step.2.message, statusCode := step.2.statusCode }
   else none,
   step.2)

/-- The `for _, keys := range sliceKeys` loop of src tollbooth.go
`LimitByRequest`: check each key tuple in order and return the first
`HTTPError`, short-circuiting the rest. -/
def limitKeysLoop (l : Limiter) (now : ℚ) :
    List (List String) → Option HTTPError × Limiter
  | [] => (none, l)
  | keys :: rest =>
    match LimitByKeys l keys now with
    | (some e, l1) => (some e, l1)
    | (none, l1) => limitKeysLoop l1 now rest

/-- From src tollbooth.go: `LimitByRequest` builds the keys and loops them,
returning the first error. `none` in the outer `Option` propagates a
`RemoteIP` panic. -/
def LimitByRequest (l : Limiter) (r : Request) (now : ℚ) :
    Option (Option HTTPError × Limiter) :=
  match BuildKeys l r with
  | none => none
  | some sliceKeys => some (limitKeysLoop l now sliceKeys)

/-- The externally visible actions of one pass through the middleware closure
of src tollbooth.go `LimitHandler`: how many times `ExecOnLimitReached` ran,
the Content-Type values added, the status codes and bodies written, and how
many times the wrapped next handler ran. The four informational
X-Rate-Limit-* header adds of `setResponseHeaders` are not recorded. -/
structure HandlerTranscript where
  onLimitReachedCalls : ℕ
  contentTypeAdds : List String
  statusWrites : List ℤ
  bodyWrites : List String
  nextCalls : ℕ

/-- From src tollbooth.go: `LimitHandler`'s middleware body. On an admission
error it runs the limit-reached callback, adds the configured content type,
writes the error's status code and message, and returns without the next
handler; otherwise it only serves the next handler. -/
def LimitHandler (l : Limiter) (r : Request) (now : ℚ) :
    Option (HandlerTranscript × Limiter) :=
  match LimitByRequest l r now with
  | none => none
  | some (some httpError, l1) =>
    some
      ({ onLimitReachedCalls := 1
         contentTypeAdds := [l1.messageContentType]
         statusWrites := [httpError.statusCode]
         bodyWrites := [httpError.message]
         nextCalls := 0 }, l1)
  | some (none, l1) =>
    some
      ({ onLimitReachedCalls := 0
         contentTypeAdds := []
         statusWrites := []
         bodyWrites := []
         nextCalls := 1 }, l1)

/-- A record of the src storages in-memory counter map: count, per-entry TTL,
and the absolute expiration instant (`none` models a nil `expires` pointer,
which counts as expired). -/
structure InMemoryItem where
  count : ℤ
  ttl : ℚ
  expires : Option ℚ

/-- From src storages: `InMemoryItem.expired` is true for a nil expiration or
an expiration strictly before now (`expires.Before(now)`). -/
def itemExpired (it : InMemoryItem) (now : ℚ) : Bool :=
  match it.expires with
  | none => true
  | some e => e < now

/-- From src storages: `InMemoryItem.touch` stamps a fresh sliding expiration
`now + ttl`. -/
def itemTouch (it : InMemoryItem) (now : ℚ) : InMemoryItem :=
  { it with expires := some (now + it.ttl) }

/-- From src storages: `NewInMemoryItem` starts the count at `num` and
touches. -/
def NewInMemoryItem (num : ℤ) (ttl : ℚ) (now : ℚ) : InMemoryItem :=
  itemTouch { count := num, ttl := ttl, expires := none } now

/-- The item map of the src storages `InMemory` store. -/
def InMemory : Type := List (String × InMemoryItem)

/-- From src storages: `InMemory.GetItem` misses on an absent or expired key;
a hit refreshes the item's expiration (sliding TTL) and returns it. The
returned map reflects the touch. -/
def GetItem (m : InMemory) (key : String) (now : ℚ) :
    Option InMemoryItem × InMemory :=
  match assocGet m key with
  | none => (none, m)
  | some it =>
    if itemExpired it now then (none, m)
    else (some (itemTouch it now), assocSet m key (itemTouch it now))

/-- From src storages: `InMemory.Get` returns the found item's count, or -1
and not-found. -/
def storageGet (m : InMemory) (key : String) (now : ℚ) :
    (ℤ × Bool) × InMemory :=
  match GetItem m key now with
  | (some it, m1) => ((it.count, true), m1)
  | (none, m1) => ((-1, false), m1)

/-- From src storages: `InMemory.IncrBy` increments a found item by `num`, and
otherwise installs a fresh `NewInMemoryItem num ttl` under the key. -/
def IncrBy (m : InMemory) (key : String) (num : ℤ) (ttl : ℚ) (now : ℚ) :
    InMemory :=
  match GetItem m key now with
  | (some it, m1) => assocSet m1 key { it with count := it.count + num }
  | (none, m1) => assocSet m1 key (NewInMemoryItem num ttl now)

/-- Go `int(x)` on a float64: truncation toward zero, on the rational model. -/
def goTruncInt (q : ℚ) : ℤ :=
  if 0 ≤ q then ⌊q⌋ else -⌊-q⌋

namespace V6

/-- The configuration fields of the float64-max limiter generation that the
src tollbooth.go `NewLimiter` (max float64, SetMax/SetBurst chain)
constructs. -/
structure Limiter where
  max : ℚ
  burst : ℤ

/-- Modelled from the spec: the limiter constructor defaults the rate
parameters to their zero values before the setter chain runs (configuration
setters are "mutable at runtime, thread-safe, chainable"); the limiter
package source of this generation is not in src. -/
def New : Limiter :=
  { max := 0, burst := 0 }

/-- Modelled from the spec: `SetMax` is a chainable setter storing the
maximum; the src limiter/limiter.go `SetMax` of the previous generation
likewise stores its argument unchanged. -/
def SetMax (l : Limiter) (max : ℚ) : Limiter :=
  { l with max := max }

/-- Modelled from the spec: `SetBurst` is a chainable setter storing the
burst; the limiter package source of this generation is not in src. -/
def SetBurst (l : Limiter) (burst : ℤ) : Limiter :=
  { l with burst := burst }

/-- From src tollbooth.go: `NewLimiter(max, tbOptions)` is
`limiter.New(tbOptions).SetMax(max).SetBurst(int(math.Max(1, max)))`. -/
def NewLimiter (max : ℚ) : Limiter :=
  SetBurst (SetMax New max) (goTruncInt (Max.max 1 max))

end V6

/-- Test fixture: the limiter configuration used by the concrete theorems
below. Rate one per second, a 10-second bucket TTL, methods restricted to
POST, no header rules, no basic-auth users, IP resolved from X-Real-IP
first. -/
def lmtFix : Limiter :=
  { New 10 with
      max := 1
      ttl := 1
      methods := some ["POST"]
      ipLookups := ["X-Real-IP", "RemoteAddr", "X-Forwarded-For"] }

/-- Test fixture: a GET request carrying X-Real-IP 127.0.0.1. -/
def reqGet : Request :=
  { method := "GET"
    path := "/doesntmatter"
    remoteAddr := "127.0.0.1:8080"
    headers := [("X-Real-IP", "127.0.0.1")]
    basicAuth := none }

/-- Test fixture: the request of the repository's own
TestRemoteIPMultipleForwardedFor, with a two-address X-Forwarded-For chain. -/
def req48 : Request :=
  { method := "GET"
    path := "/"
    remoteAddr := ""
    headers :=
      [("X-Forwarded-For", "10.10.10.10,10.10.10.11"),
       ("X-Real-IP", "2601:7:1c82:4097:59a0:a80b:2841:b8c8")]
    basicAuth := none }

/-- Test fixture: a request whose remote address is empty while X-Real-IP is
populated. -/
def reqEmptyAddr : Request :=
  { method := "GET"
    path := "/"
    remoteAddr := ""
    headers := [("X-Real-IP", "1.2.3.4")]
    basicAuth := none }

/-- Test fixture: the compound-dimension limiter of the C5 scenario:
methods GET, header rule X-Auth-Token with two secrets, basic-auth user
bob. -/
def lmtCompound : Limiter :=
  { New 10 with
      max := 1
      ttl := 1
      methods := some ["GET"]
      basicAuthUsers := ["bob"]
      headers := [("X-Auth-Token", ["secret1", "secret2"])]
      ipLookups := ["X-Real-IP"] }

/-- Test fixture: a GET request with the first secret and basic-auth bob. -/
def reqCompound : Request :=
  { method := "GET"
    path := "/p"
    remoteAddr := "10.0.0.9:1234"
    headers := [("X-Real-IP", "10.0.0.9"), ("X-Auth-Token", "secret1")]
    basicAuth := some "bob" }

/-- Test fixture: the same request with an unlisted header value. -/
def reqCompoundBad : Request :=
  { reqCompound with
      headers := [("X-Real-IP", "10.0.0.9"), ("X-Auth-Token", "stolen")] }

/-- A sequence of `LimitReached` calls on one key at the given instants,
collecting the returned booleans and threading the limiter state. -/
def callSeq (l : Limiter) (key : String) : List ℚ → List Bool × Limiter
  | [] => ([], l)
  | t :: ts =>
    let step := LimitReached l key t
    let rest := callSeq step.2 key ts
    (step.1 :: rest.1, rest.2)

/-- Test fixture: the limiter of the C6 and C9 concrete runs, identical to
`lmtFix` but with max 0, so that its zero-burst buckets reject every call. -/
def lmtZero : Limiter :=
  { lmtFix with max := 0 }

/-- Test fixture: a rate-2-per-second limiter with a 10-second bucket TTL for
the token-bucket run. -/
def lmtC2 : Limiter :=
  { New 10 with max := 2, ttl := 1 }

/-- Test fixture: the joined default key of `reqGet` under `lmtFix`. -/
def keyDefault : String :=
  joinKey ["127.0.0.1", "/doesntmatter", "", "", "", ""]

/-- Test fixture: the state of `lmtZero` after one rejected request at
instant 1: a zero-burst bucket under the default key, expiring at 11. -/
def lmtZeroAfter : Limiter :=
  { lmtZero with
      tokenBuckets :=
        [(keyDefault,
          { bucket := { limit := 1, burst := 0, tokens := 0, last := 0 },
            expiration := 11 })] }

/-- Test fixture: the transcript of a rejected request under the default
configuration. -/
def trReject : HandlerTranscript :=
  { onLimitReachedCalls := 1
    contentTypeAdds := ["text/plain; charset=utf-8"]
    statusWrites := [429]
    bodyWrites := ["You have reached maximum request limit."]
    nextCalls := 0 }

/-- Every tuple emitted by the header-rule loop is the six-component compound
tuple over the fixed base. -/
theorem headerTuples_mem (r : Request) (ip p m u : String) :
    ∀ (rules : List (String × List String)) (ks : List String),
      ks ∈ headerTuples r ip p m u rules → ∃ hk hv, ks = [ip, p, m, hk, hv, u]
  | [], ks, h => absurd h (List.not_mem_nil ks)
  | (hk0, vs) :: rest, ks, h => by
    simp only [headerTuples, List.mem_append] at h
    rcases h with h | h
    · by_cases h1 : vs.length = 0 ∧ headerGet r hk0 ≠ ""
      · rw [if_pos h1] at h
        simp only [List.mem_singleton] at h
        exact ⟨hk0, headerGet r hk0, h⟩
      · rw [if_neg h1] at h
        by_cases h2 : 0 < vs.length ∧ headerGet r hk0 ≠ ""
        · rw [if_pos h2] at h
          cases hf : vs.find? (fun v => headerGet r hk0 = v) with
          | none => rw [hf] at h; simp at h
          | some v =>
            rw [hf] at h
            simp only [List.mem_singleton] at h
            exact ⟨hk0, v, h⟩
        · rw [if_neg h2] at h; simp at h
    · exact headerTuples_mem r ip p m u rest ks h

/-- With no header rules, no basic-auth users, and a configured methods list
that does not contain the request's method, `BuildKeys` emits the single
default tuple with blank method, header and user slots. -/
theorem buildKeys_unmatched_method_default (lmt : Limiter) (r : Request)
    (ms : List String) (ip : String)
    (hm : lmt.methods = some ms) (hnm : StringInSlice ms r.method = false)
    (hh : lmt.headers = []) (hb : lmt.basicAuthUsers = [])
    (hip : RemoteIP lmt.ipLookups lmt.forwardedForIndexFromBehind r = some ip)
    (hip0 : ip ≠ "") :
    BuildKeys lmt r = some [[ip, r.path, "", "", "", ""]] := by
  unfold BuildKeys methodComponent usernameToLimit
  rw [hip]
  simp [hip0, hm, hnm, hh, hb]

/-- C3. The claim says `RemoteIP` clamps an out-of-bounds non-negative
X-Forwarded-For offset to the first list element and never indexes out of
range. On the repository's own test input (TestRemoteIPMultipleForwardedFor:
a two-address chain, lookups starting with X-Forwarded-For), offsets 0 and 1
select from the right as specified, but offset 2 evaluates `parts[-1]` and
panics (`none`), where the test expects the first element "10.10.10.10". -/
theorem C3_out_of_range_forwarded_for_offset_panics :
    RemoteIP ["X-Forwarded-For", "X-Real-IP", "RemoteAddr"] 0 req48 = some "10.10.10.11" ∧
    RemoteIP ["X-Forwarded-For", "X-Real-IP", "RemoteAddr"] 1 req48 = some "10.10.10.10" ∧
    RemoteIP ["X-Forwarded-For", "X-Real-IP", "RemoteAddr"] 2 req48 = none := by
  decide

/-- C4 counterexample. The claim says the first source yielding a non-empty
value wins, so that with lookups [RemoteAddr, X-Real-IP], an empty remote
address and X-Real-IP 1.2.3.4 the result should be 1.2.3.4; the code instead
returns the RemoteAddr source unconditionally, yielding the empty string. -/
theorem C4_counterexample_empty_remoteaddr_wins :
    reqEmptyAddr.remoteAddr = "" ∧
    headerGet reqEmptyAddr "X-Real-IP" = "1.2.3.4" ∧
    RemoteIP ["RemoteAddr", "X-Real-IP"] 0 reqEmptyAddr = some "" ∧
    RemoteIP ["RemoteAddr", "X-Real-IP"] 0 reqEmptyAddr ≠ some "1.2.3.4" := by
  decide

/-- C4 amended. `RemoteIP` returns the value of the first source in lookup
order that yields, where the header sources X-Forwarded-For and X-Real-IP
yield only when their header is non-empty (and are skipped otherwise, as are
unrecognized source names), while the RemoteAddr source always yields the
port-stripped remote address, even when it is empty — terminating the search
so that a later non-empty source cannot win; an exhausted lookup list yields
the empty string. -/
theorem C4_amended_first_yielding_source_wins
    (l : List String) (idx : ℤ) (r : Request) (lookup : String) :
    (RemoteIP [] idx r = some "") ∧
    (lookup = "RemoteAddr" →
      RemoteIP (lookup :: l) idx r = some (ipAddrFromRemoteAddr r.remoteAddr)) ∧
    (lookup = "X-Real-IP" → headerGet r "X-Real-IP" ≠ "" →
      RemoteIP (lookup :: l) idx r = some (headerGet r "X-Real-IP")) ∧
    (lookup = "X-Real-IP" → headerGet r "X-Real-IP" = "" →
      RemoteIP (lookup :: l) idx r = RemoteIP l idx r) ∧
    (lookup = "X-Forwarded-For" → headerGet r "X-Forwarded-For" = "" →
      RemoteIP (lookup :: l) idx r = RemoteIP l idx r) ∧
    (lookup ≠ "RemoteAddr" → lookup ≠ "X-Forwarded-For" → lookup ≠ "X-Real-IP" →
      RemoteIP (lookup :: l) idx r = RemoteIP l idx r) := by
  refine ⟨rfl, ?_, ?_, ?_, ?_, ?_⟩
  · intro h; subst h; simp [RemoteIP, remoteIPLoop]
  · intro h hne; subst h; simp [RemoteIP, remoteIPLoop, hne]
  · intro h he; subst h; simp [RemoteIP, remoteIPLoop, he]
  · intro h he; subst h; simp [RemoteIP, remoteIPLoop, he]
  · intro h1 h2 h3; simp [RemoteIP, remoteIPLoop, h1, h2, h3]

/-- C4 witness. A bogus source name and the empty X-Forwarded-For are
skipped, letting X-Real-IP yield; and an empty RemoteAddr still terminates
the search with the empty string. -/
theorem C4_amended_witness :
    RemoteIP ["bogus", "X-Real-IP"] 0 reqEmptyAddr = some "1.2.3.4" ∧
    RemoteIP ["RemoteAddr", "X-Real-IP"] 0 reqEmptyAddr = some "" := by
  constructor
  · rw [(C4_amended_first_yielding_source_wins ["X-Real-IP"] 0 reqEmptyAddr
      "bogus").2.2.2.2.2 (by decide) (by decide) (by decide)]
    rw [(C4_amended_first_yielding_source_wins [] 0 reqEmptyAddr
      "X-Real-IP").2.2.1 rfl (by decide)]
    decide
  · rw [(C4_amended_first_yielding_source_wins ["X-Real-IP"] 0 reqEmptyAddr
      "RemoteAddr").2.1 rfl]
    decide

/-- C1 counterexample. The claim says a configured restricted-methods list
that does not match the request's method (no other dimensions configured)
makes `BuildKeys` return the empty key list so the request passes through;
on a GET against a POST-restricted limiter the code instead emits one
default tuple with a blank method slot, so the request is rate-limited in
the shared ip+path bucket. -/
theorem C1_counterexample_get_still_keyed :
    lmtFix.methods = some ["POST"] ∧ reqGet.method = "GET" ∧
    lmtFix.headers = [] ∧ lmtFix.basicAuthUsers = [] ∧
    BuildKeys lmtFix reqGet = some [["127.0.0.1", "/doesntmatter", "", "", "", ""]] ∧
    BuildKeys lmtFix reqGet ≠ some [] := by
  decide

/-- C1 amended. When the restricted-methods list is configured but does not
contain the request's method, and the header and basic-auth dimensions are
unconfigured, `BuildKeys` (for a non-blank resolved IP) returns the single
default tuple with empty method, header and user slots — the request is
still subjected to the limiter under the shared ip+path bucket, not passed
through. -/
theorem C1_amended_unmatched_method_not_passthrough (lmt : Limiter)
    (r : Request) (ms : List String) (ip : String)
    (hm : lmt.methods = some ms) (hnm : StringInSlice ms r.method = false)
    (hh : lmt.headers = []) (hb : lmt.basicAuthUsers = [])
    (hip : RemoteIP lmt.ipLookups lmt.forwardedForIndexFromBehind r = some ip)
    (hip0 : ip ≠ "") :
    BuildKeys lmt r = some [[ip, r.path, "", "", "", ""]] :=
  buildKeys_unmatched_method_default lmt r ms ip hm hnm hh hb hip hip0

/-- C1 witness: the amended statement applied to the POST-restricted limiter
and the GET request. -/
theorem C1_amended_witness :
    BuildKeys lmtFix reqGet = some [["127.0.0.1", "/doesntmatter", "", "", "", ""]] :=
  C1_amended_unmatched_method_not_passthrough lmtFix reqGet ["POST"] "127.0.0.1"
    rfl (by decide) rfl rfl (by decide) (by decide)

/-- C5. With methods GET, the header rule X-Auth-Token in two secrets,
and basic-auth users containing exactly bob: a GET request with basic-auth
bob and the header at secret1 yields exactly one compound tuple carrying the
method, header name, matched value and username together; the same request
with an unlisted header value yields no tuple at all. -/
theorem C5_compound_tuple_or_nothing (lmt : Limiter) (r : Request) (ip : String)
    (hm : lmt.methods = some ["GET"])
    (hh : lmt.headers = [("X-Auth-Token", ["secret1", "secret2"])])
    (hb : lmt.basicAuthUsers = ["bob"])
    (hip : RemoteIP lmt.ipLookups lmt.forwardedForIndexFromBehind r = some ip)
    (hip0 : ip ≠ "")
    (hmeth : r.method = "GET") (hauth : r.basicAuth = some "bob") :
    (headerGet r "X-Auth-Token" = "secret1" →
      BuildKeys lmt r = some [[ip, r.path, "GET", "X-Auth-Token", "secret1", "bob"]]) ∧
    (headerGet r "X-Auth-Token" ≠ "secret1" → headerGet r "X-Auth-Token" ≠ "secret2" →
      BuildKeys lmt r = some []) := by
  have hmc : methodComponent lmt r = "GET" := by
    unfold methodComponent
    rw [hm, hmeth]
    simp [StringInSlice]
  have huc : usernameToLimit lmt r = "bob" := by
    unfold usernameToLimit
    rw [hb, hauth]
    simp [StringInSlice]
  constructor
  · intro hget
    unfold BuildKeys
    rw [hip]
    simp only [if_neg hip0, hh, hmc, huc]
    unfold headerTuples headerTuples
    rw [hget]
    simp
  · intro hg1 hg2
    unfold BuildKeys
    rw [hip]
    simp only [if_neg hip0, hh, hmc, huc]
    unfold headerTuples headerTuples
    by_cases he : headerGet r "X-Auth-Token" = ""
    · simp [he]
    · simp [he, List.find?, hg1, hg2]

/-- C5 witness: the compound fixture with the matching and the unlisted
header value. -/
theorem C5_compound_witness :
    BuildKeys lmtCompound reqCompound
      = some [["10.0.0.9", "/p", "GET", "X-Auth-Token", "secret1", "bob"]] ∧
    BuildKeys lmtCompound reqCompoundBad = some [] := by
  constructor
  · exact (C5_compound_tuple_or_nothing lmtCompound reqCompound "10.0.0.9"
      rfl rfl rfl (by decide) (by decide) rfl rfl).1 (by decide)
  · exact (C5_compound_tuple_or_nothing lmtCompound reqCompoundBad "10.0.0.9"
      rfl rfl rfl (by decide) (by decide) rfl rfl).2 (by decide) (by decide)

/-- C8 counterexample. The claim says construction either fails fast or
clamps so that the stored configuration never violates ratePerSecond > 0; at
max = 0 the construction succeeds (it is a total function), clamps only the
burst, and silently stores the non-positive max. -/
theorem C8_counterexample_nonpositive_max_stored :
    (V6.NewLimiter 0).max = 0 ∧ ¬ 0 < (V6.NewLimiter 0).max ∧
    (V6.NewLimiter 0).burst = 1 := by
  refine ⟨rfl, by norm_num [V6.NewLimiter, V6.SetMax, V6.SetBurst, V6.New], ?_⟩
  norm_num [V6.NewLimiter, V6.SetMax, V6.SetBurst, V6.New, goTruncInt]

/-- C8 amended. `NewLimiter` never fails; for every max it stores the burst
as the truncation of the larger of 1 and max — hence always at least 1 — but
it stores the max itself unchanged, so a non-positive rate is accepted
silently. -/
theorem C8_amended_burst_clamped_max_not (m : ℚ) :
    (V6.NewLimiter m).burst = goTruncInt (Max.max 1 m) ∧
    1 ≤ (V6.NewLimiter m).burst ∧
    (V6.NewLimiter m).max = m := by
  refine ⟨rfl, ?_, rfl⟩
  show 1 ≤ goTruncInt (Max.max 1 m)
  unfold goTruncInt
  rw [if_pos (le_trans zero_le_one (le_max_left 1 m))]
  exact Int.le_floor.2 (by exact_mod_cast le_max_left 1 m)

/-- C10. Every tuple `BuildKeys` returns has exactly six string components,
the first two being the resolved client IP and the request path, unmatched
dimensions appearing as empty strings; consequently two requests from the
same IP and path that differ only in unmatched dimensions (methods outside
the restricted list, no header rules, no basic-auth users) build identical
key lists. -/
theorem C10_six_component_compound_tuples
    (lmt : Limiter) (r r2 : Request) (ip : String) (keys : List (List String))
    (ks : List String) (ms : List String) :
    (BuildKeys lmt r = some keys → ks ∈ keys →
      RemoteIP lmt.ipLookups lmt.forwardedForIndexFromBehind r = some ip →
      ∃ hk hv,
        ks = [ip, r.path, methodComponent lmt r, hk, hv, usernameToLimit lmt r]) ∧
    (lmt.headers = [] → lmt.basicAuthUsers = [] → lmt.methods = some ms →
      StringInSlice ms r.method = false → StringInSlice ms r2.method = false →
      RemoteIP lmt.ipLookups lmt.forwardedForIndexFromBehind r = some ip →
      RemoteIP lmt.ipLookups lmt.forwardedForIndexFromBehind r2 = some ip →
      ip ≠ "" → r.path = r2.path →
      BuildKeys lmt r = BuildKeys lmt r2) := by
  constructor
  · intro hbk hks hip
    unfold BuildKeys at hbk
    rw [hip] at hbk
    by_cases hip0 : ip = ""
    · simp only [if_pos hip0] at hbk
      cases hbk
      simp at hks
    · simp only [if_neg hip0] at hbk
      by_cases hhl : 0 < lmt.headers.length
      · rw [if_pos hhl] at hbk
        cases hbk
        exact headerTuples_mem r ip r.path (methodComponent lmt r)
          (usernameToLimit lmt r) lmt.headers ks hks
      · rw [if_neg hhl] at hbk
        cases hbk
        simp only [List.mem_singleton] at hks
        exact ⟨"", "", hks⟩
  · intro hh hb hm hnm hnm2 hip hip2 hip0 hpath
    rw [buildKeys_unmatched_method_default lmt r ms ip hm hnm hh hb hip hip0,
      buildKeys_unmatched_method_default lmt r2 ms ip hm hnm2 hh hb hip2 hip0,
      hpath]

/-- C10 witness: the six-component shape at the GET fixture, and key
equality for two requests differing only in their (unmatched) methods. -/
theorem C10_witness :
    (∃ hk hv,
      ["127.0.0.1", "/doesntmatter", "", "", "", ""]
        = ["127.0.0.1", reqGet.path, methodComponent lmtFix reqGet, hk, hv,
           usernameToLimit lmtFix reqGet]) ∧
    BuildKeys lmtFix reqGet = BuildKeys lmtFix { reqGet with method := "PUT" } := by
  constructor
  · exact (C10_six_component_compound_tuples lmtFix reqGet reqGet "127.0.0.1"
      [["127.0.0.1", "/doesntmatter", "", "", "", ""]]
      ["127.0.0.1", "/doesntmatter", "", "", "", ""] ["POST"]).1
      (by decide) (by decide) (by decide)
  · exact (C10_six_component_compound_tuples lmtFix reqGet
      { reqGet with method := "PUT" } "127.0.0.1" [] [] ["POST"]).2
      rfl rfl rfl (by decide) (by decide) (by decide) (by decide) (by decide) rfl

theorem assocGet_assocSet_self {α : Type} (xs : List (String × α)) (k : String)
    (v : α) : assocGet (assocSet xs k v) k = some v := by
  induction xs with
  | nil => simp [assocSet, assocGet]
  | cons p rest ih =>
    by_cases h : p.1 = k
    · simp [assocSet, h, assocGet]
    · simpa [assocSet, h, assocGet] using ih

theorem assocGet_assocSet_other {α : Type} (xs : List (String × α))
    (k s : String) (v : α) (h : s ≠ k) :
    assocGet (assocSet xs k v) s = assocGet xs s := by
  induction xs with
  | nil => simp [assocSet, assocGet, Ne.symm h]
  | cons p rest ih =>
    by_cases hp : p.1 = k
    · subst hp
      simp [assocSet, assocGet, Ne.symm h]
    · simp [assocSet, hp, assocGet, ih]

theorem assocSet_assocSet {α : Type} (xs : List (String × α)) (k : String)
    (a b : α) : assocSet (assocSet xs k a) k b = assocSet xs k b := by
  induction xs with
  | nil => simp [assocSet]
  | cons p rest ih =>
    by_cases h : p.1 = k
    · simp [assocSet, h]
    · simp [assocSet, h, ih]

theorem bucketsAfterEnsure_frame (l : Limiter) (key s : String) (d now : ℚ)
    (hs : s ≠ key) :
    assocGet (bucketsAfterEnsure l key d now) s = assocGet l.tokenBuckets s := by
  unfold bucketsAfterEnsure
  cases cacheGet l.tokenBuckets key now with
  | some it => rfl
  | none => exact assocGet_assocSet_other l.tokenBuckets key s _ hs

/-- The limit check only rewrites the bucket map; every other limiter field
is preserved. -/
theorem limitReached_preserves (l : Limiter) (key : String) (d now : ℚ) :
    ∃ bk, (limitReachedWithTokenBucketTTL l key d now).2
      = { l with tokenBuckets := bk } := by
  unfold limitReachedWithTokenBucketTTL
  split
  · exact ⟨_, rfl⟩
  · exact ⟨_, rfl⟩

/-- The limit check for one key leaves every other key's bucket binding
unchanged. -/
theorem limitReached_frame (l : Limiter) (key s : String) (d now : ℚ)
    (hs : s ≠ key) :
    assocGet (limitReachedWithTokenBucketTTL l key d now).2.tokenBuckets s
      = assocGet l.tokenBuckets s := by
  unfold limitReachedWithTokenBucketTTL
  split
  · exact bucketsAfterEnsure_frame l key s d now hs
  · show assocGet (assocSet (bucketsAfterEnsure l key d now) key _) s = _
    rw [assocGet_assocSet_other _ key s _ hs]
    exact bucketsAfterEnsure_frame l key s d now hs

/-- Inversion of a rejecting `LimitByKeys` call: the error carries the
configured message and status code, the limiter is changed only in its
bucket map, and only at the joined key. -/
theorem limitByKeys_some_inv (l l1 : Limiter) (keys : List String) (now : ℚ)
    (e : HTTPError) (h : LimitByKeys l keys now = (some e, l1)) :
    e.message = l.message ∧ e.statusCode = l.statusCode ∧
    (∃ bk, l1 = { l with tokenBuckets := bk }) ∧
    ∀ s, s ≠ joinKey keys →
      assocGet l1.tokenBuckets s = assocGet l.tokenBuckets s := by
  rcases limitReached_preserves l (joinKey keys) 0 now with ⟨bk, hbk⟩
  simp only [LimitByKeys, LimitReached] at h
  by_cases hr : (limitReachedWithTokenBucketTTL l (joinKey keys) 0 now).1 = true
  · rw [if_pos hr, Prod.mk.injEq] at h
    rcases h with ⟨h1, h2⟩
    have he := (Option.some.inj h1).symm
    refine ⟨by rw [he, hbk], by rw [he, hbk], ⟨bk, by rw [← h2, hbk]⟩, ?_⟩
    intro s hs
    rw [← h2]
    exact limitReached_frame l (joinKey keys) s 0 now hs
  · rw [if_neg hr, Prod.mk.injEq] at h
    cases h.1

/-- Inversion of an admitting `LimitByKeys` call: the limiter is changed only
in its bucket map, and only at the joined key. -/
theorem limitByKeys_none_inv (l l1 : Limiter) (keys : List String) (now : ℚ)
    (h : LimitByKeys l keys now = (none, l1)) :
    (∃ bk, l1 = { l with tokenBuckets := bk }) ∧
    ∀ s, s ≠ joinKey keys →
      assocGet l1.tokenBuckets s = assocGet l.tokenBuckets s := by
  rcases limitReached_preserves l (joinKey keys) 0 now with ⟨bk, hbk⟩
  simp only [LimitByKeys, LimitReached] at h
  rw [Prod.mk.injEq] at h
  rcases h with ⟨_, h2⟩
  refine ⟨⟨bk, by rw [← h2, hbk]⟩, ?_⟩
  intro s hs
  rw [← h2]
  exact limitReached_frame l (joinKey keys) s 0 now hs

/-- Inversion of a rejecting run of the key loop: the loop stops at the first
rejecting key (all earlier keys admitted), the error carries the configured
message and status code, the limiter changed only in its bucket map, and
every key string other than the processed ones keeps its bucket binding. -/
theorem limitKeysLoop_reject_inv (now : ℚ) :
    ∀ (ks : List (List String)) (lmt lf : Limiter) (e : HTTPError),
      limitKeysLoop lmt now ks = (some e, lf) →
      e.message = lmt.message ∧ e.statusCode = lmt.statusCode ∧
      (∃ bk, lf = { lmt with tokenBuckets := bk }) ∧
      ∃ pre kbad post stPre,
        ks = pre ++ kbad :: post ∧
        limitKeysLoop lmt now pre = (none, stPre) ∧
        LimitByKeys stPre kbad now = (some e, lf) ∧
        ∀ s, joinKey s ∉ (pre ++ [kbad]).map joinKey →
          assocGet lf.tokenBuckets (joinKey s)
            = assocGet lmt.tokenBuckets (joinKey s)
  | [], lmt, lf, e, h => by simp [limitKeysLoop] at h
  | k :: rest, lmt, lf, e, h => by
    rw [limitKeysLoop] at h
    split at h
    case h_1 e0 l1 hk =>
      rw [Prod.mk.injEq] at h
      rw [Option.some.inj h.1, h.2] at hk
      rcases limitByKeys_some_inv lmt lf k now e hk with ⟨hm, hs, hshape, hframe⟩
      refine ⟨hm, hs, hshape, [], k, rest, lmt, rfl, rfl, hk, ?_⟩
      intro s hns
      simp only [List.nil_append, List.map_cons, List.map_nil,
        List.mem_singleton] at hns
      exact hframe (joinKey s) hns
    case h_2 l1 hk =>
      rcases limitKeysLoop_reject_inv now rest l1 lf e h with
        ⟨hm, hs, hshape, pre, kbad, post, stPre, hsplit, hpre, hbad, hframe⟩
      rcases limitByKeys_none_inv lmt l1 k now hk with ⟨⟨bk1, hbk1⟩, hframe1⟩
      rcases hshape with ⟨bk2, hbk2⟩
      refine ⟨?_, ?_, ?_, k :: pre, kbad, post, stPre,
        by rw [hsplit, List.cons_append], ?_, hbad, ?_⟩
      · rw [hm, hbk1]
      · rw [hs, hbk1]
      · exact ⟨bk2, by rw [hbk2, hbk1]⟩
      · rw [limitKeysLoop, hk]
        exact hpre
      · intro s hns
        simp only [List.cons_append, List.map_cons, List.mem_cons,
          not_or] at hns
        rcases hns with ⟨hns1, hns2⟩
        rw [hframe s (by simpa using hns2), hframe1 (joinKey s) hns1]

/-- Inversion of an admitting run of the key loop: only the bucket map
changes. -/
theorem limitKeysLoop_admit_inv (now : ℚ) :
    ∀ (ks : List (List String)) (lmt lf : Limiter),
      limitKeysLoop lmt now ks = (none, lf) →
      ∃ bk, lf = { lmt with tokenBuckets := bk }
  | [], lmt, lf, h => by
    rw [limitKeysLoop, Prod.mk.injEq] at h
    rcases h with ⟨_, h2⟩
    subst h2
    exact ⟨lmt.tokenBuckets, rfl⟩
  | k :: rest, lmt, lf, h => by
    rw [limitKeysLoop] at h
    split at h
    case h_1 e0 l1 hk =>
      rw [Prod.mk.injEq] at h
      cases h.1
    case h_2 l1 hk =>
      rcases limitKeysLoop_admit_inv now rest l1 lf h with ⟨bk2, hbk2⟩
      rcases limitByKeys_none_inv lmt l1 k now hk with ⟨⟨bk1, hbk1⟩, _⟩
      exact ⟨bk2, by rw [hbk2, hbk1]⟩

theorem cacheGet_some (xs : List (String × CacheItem)) (key : String)
    (it : CacheItem) (now : ℚ) (hit : assocGet xs key = some it)
    (hnex : ¬(0 < it.expiration ∧ it.expiration < now)) :
    cacheGet xs key now = some it := by
  unfold cacheGet
  rw [hit]
  show (if 0 < it.expiration ∧ it.expiration < now then none else some it) = some it
  rw [if_neg hnex]

theorem bucketsAfterEnsure_found (l : Limiter) (key : String) (d now : ℚ)
    (it : CacheItem) (hfound : cacheGet l.tokenBuckets key now = some it) :
    bucketsAfterEnsure l key d now = l.tokenBuckets := by
  unfold bucketsAfterEnsure
  rw [hfound]

/-- One `LimitReached` call, written through the post-ensure bucket map: the
reported bit is the negated consume result and the bucket is rewritten in
place with its expiration kept. -/
theorem limitReached_found_after_ensure (l : Limiter) (key : String) (now : ℚ)
    (it : CacheItem)
    (hfound : cacheGet (bucketsAfterEnsure l key 0 now) key now = some it) :
    LimitReached l key now
      = (!(allowOne it.bucket now).1,
         { l with
             tokenBuckets :=
               assocSet (bucketsAfterEnsure l key 0 now) key
                 { bucket := (allowOne it.bucket now).2, expiration := it.expiration } }) := by
  unfold LimitReached limitReachedWithTokenBucketTTL
  simp only [hfound]

/-- One `LimitReached` call on a state whose bucket map is an explicit
single-key overlay: the call consumes from that bucket in place. -/
theorem limitReached_at_state (l : Limiter) (b0 : List (String × CacheItem))
    (key : String) (it : CacheItem) (now : ℚ)
    (hl : l.tokenBuckets = assocSet b0 key it)
    (hnex : ¬(0 < it.expiration ∧ it.expiration < now)) :
    LimitReached l key now
      = (!(allowOne it.bucket now).1,
         { l with
             tokenBuckets := assocSet b0 key
               { bucket := (allowOne it.bucket now).2,
                 expiration := it.expiration } }) := by
  have hfound : cacheGet l.tokenBuckets key now = some it :=
    cacheGet_some _ _ _ _ (by rw [hl]; exact assocGet_assocSet_self _ _ _) hnex
  rw [limitReached_found_after_ensure l key now it
    (by rw [bucketsAfterEnsure_found l key 0 now it hfound]; exact hfound)]
  rw [bucketsAfterEnsure_found l key 0 now it hfound, hl, assocSet_assocSet]

theorem advance_same_instant (lim : ℚ) (b : ℤ) (tok t : ℚ) :
    advance { limit := lim, burst := b, tokens := tok, last := t } t
      = min (b : ℚ) tok := by
  simp [advance]

theorem allowOne_same_instant_pos (lim : ℚ) (b : ℤ) (tok t : ℚ) (hb : 1 ≤ b)
    (h1 : 1 ≤ tok) (hle : tok ≤ (b : ℚ)) :
    allowOne { limit := lim, burst := b, tokens := tok, last := t } t
      = (true, { limit := lim, burst := b, tokens := tok - 1, last := t }) := by
  unfold allowOne
  rw [advance_same_instant, min_eq_right hle, if_pos ⟨hb, by linarith⟩]

theorem allowOne_same_instant_empty (lim : ℚ) (b : ℤ) (t : ℚ)
    (hb0 : (0 : ℚ) ≤ (b : ℚ)) :
    allowOne { limit := lim, burst := b, tokens := 0, last := t } t
      = (false, { limit := lim, burst := b, tokens := 0, last := t }) := by
  unfold allowOne
  rw [advance_same_instant, min_eq_right hb0]
  have hno : ¬(1 ≤ b ∧ (0 : ℚ) ≤ 0 - 1) := by
    rintro ⟨_, hc⟩
    norm_num at hc
  rw [if_neg hno]

theorem allowOne_refill_one (T : ℚ) (b : ℤ) (t : ℚ) (hT : 0 < T) (hb : 1 ≤ b) :
    allowOne { limit := 1 / T, burst := b, tokens := 0, last := t } (t + T)
      = (true, { limit := 1 / T, burst := b, tokens := 0, last := t + T }) := by
  have hadv : advance { limit := 1 / T, burst := b, tokens := 0, last := t } (t + T)
      = 1 := by
    unfold advance
    dsimp only
    have h1 : (0 : ℚ) + (t + T - t) * (1 / T) = 1 := by
      field_simp
    rw [h1]
    exact min_eq_right (by exact_mod_cast hb)
  unfold allowOne
  rw [hadv, if_pos ⟨hb, by norm_num⟩]
  norm_num

theorem callSeq_append (key : String) (xs ys : List ℚ) :
    ∀ l : Limiter,
      callSeq l key (xs ++ ys)
        = ((callSeq l key xs).1 ++ (callSeq (callSeq l key xs).2 key ys).1,
           (callSeq (callSeq l key xs).2 key ys).2) := by
  induction xs with
  | nil => intro l; simp [callSeq]
  | cons x rest ih =>
    intro l
    simp only [List.cons_append, callSeq, List.append_eq, ih]

/-- Draining a bucket holding j tokens with j calls at its own last-update
instant: every call admits, and the bucket ends empty. -/
theorem callSeq_drain (key : String) (b0 : List (String × CacheItem))
    (lim e t : ℚ) (b : ℤ) (hb : 1 ≤ b) (hnex : ¬(0 < e ∧ e < t)) :
    ∀ (j : ℕ) (l : Limiter), ((j : ℚ)) ≤ (b : ℚ) →
      l.tokenBuckets = assocSet b0 key
        { bucket := { limit := lim, burst := b, tokens := (j : ℚ), last := t },
          expiration := e } →
      callSeq l key (List.replicate j t)
        = (List.replicate j false,
           { l with
               tokenBuckets := assocSet b0 key
                 { bucket := { limit := lim, burst := b, tokens := 0, last := t },
                   expiration := e } })
  | 0, l, hj, hl => by
    have hl0 : l.tokenBuckets = assocSet b0 key
        { bucket := { limit := lim, burst := b, tokens := 0, last := t },
          expiration := e } := by
      simpa using hl
    simp only [List.replicate, callSeq]
    rw [← hl0]
  | j + 1, l, hj, hl => by
    have hit : assocGet l.tokenBuckets key = some
        { bucket := { limit := lim, burst := b, tokens := ((j + 1 : ℕ) : ℚ), last := t },
          expiration := e } := by
      rw [hl]
      exact assocGet_assocSet_self _ _ _
    have hfound : cacheGet l.tokenBuckets key t = some
        { bucket := { limit := lim, burst := b, tokens := ((j + 1 : ℕ) : ℚ), last := t },
          expiration := e } :=
      cacheGet_some _ _ _ _ hit hnex
    have hallow : allowOne
        { limit := lim, burst := b, tokens := ((j + 1 : ℕ) : ℚ), last := t } t
        = (true, { limit := lim, burst := b, tokens := (j : ℚ), last := t }) := by
      have h0 := allowOne_same_instant_pos lim b ((j + 1 : ℕ) : ℚ) t hb
        (by push_cast; linarith [Nat.cast_nonneg (α := ℚ) j]) (by push_cast at hj ⊢; linarith)
      rw [h0]
      have : ((j + 1 : ℕ) : ℚ) - 1 = (j : ℚ) := by push_cast; ring
      rw [this]
    have hlr : LimitReached l key t
        = (false,
           { l with
               tokenBuckets := assocSet b0 key
                 { bucket := { limit := lim, burst := b, tokens := (j : ℚ), last := t },
                   expiration := e } }) := by
      rw [limitReached_found_after_ensure l key t _
        (by rw [bucketsAfterEnsure_found l key 0 t _ hfound]; exact hfound)]
      rw [hallow, bucketsAfterEnsure_found l key 0 t _ hfound, hl, assocSet_assocSet]
      rfl
    have hj2 : ((j : ℚ)) ≤ (b : ℚ) := by push_cast at hj ⊢; linarith
    rw [List.replicate_succ, callSeq, hlr]
    have ih := callSeq_drain key b0 lim e t b hb hnex j
      { l with
          tokenBuckets := assocSet b0 key
            { bucket := { limit := lim, burst := b, tokens := (j : ℚ), last := t },
              expiration := e } } hj2 rfl
    simp only [ih, List.replicate_succ]

/-- The tail of the token-bucket scenario: with the bucket drained (zero
tokens, last update t, not expired), a call at t is rejected, a call at
t + T refills exactly one token and is admitted, and a further call at
t + T is rejected again. -/
theorem callSeq_tail (l : Limiter) (b0 : List (String × CacheItem))
    (key : String) (T E t : ℚ) (b : ℤ) (hb : 1 ≤ b) (hT : 0 < T)
    (hnex : ¬(0 < t + E ∧ t + E < t)) (hnexT : ¬(0 < t + E ∧ t + E < t + T))
    (hl : l.tokenBuckets = assocSet b0 key
      { bucket := { limit := 1 / T, burst := b, tokens := 0, last := t },
        expiration := t + E }) :
    (callSeq l key [t, t + T, t + T]).1 = [true, false, true] := by
  have hb0 : (0 : ℚ) ≤ (b : ℚ) := by exact_mod_cast le_trans zero_le_one hb
  have h1 := limitReached_at_state l b0 key
    { bucket := { limit := 1 / T, burst := b, tokens := 0, last := t },
      expiration := t + E } t hl hnex
  simp only [allowOne_same_instant_empty (1 / T) b t hb0, Bool.not_false] at h1
  have h2 := limitReached_at_state
    { l with
        tokenBuckets := assocSet b0 key
          { bucket := { limit := 1 / T, burst := b, tokens := 0, last := t },
            expiration := t + E } } b0 key
    { bucket := { limit := 1 / T, burst := b, tokens := 0, last := t },
      expiration := t + E } (t + T) rfl hnexT
  simp only [allowOne_refill_one T b t hT hb, Bool.not_true] at h2
  have h3 := limitReached_at_state
    { l with
        tokenBuckets := assocSet b0 key
          { bucket := { limit := 1 / T, burst := b, tokens := 0, last := t + T },
            expiration := t + E } } b0 key
    { bucket := { limit := 1 / T, burst := b, tokens := 0, last := t + T },
      expiration := t + E } (t + T) rfl hnexT
  simp only [allowOne_same_instant_empty (1 / T) b (t + T) hb0, Bool.not_false] at h3
  simp only [callSeq, h1, h2, h3]

/-- C2. A limiter with max B (so burst B) and TTL T (so refill rate R = 1/T
per second), with no bucket yet under the key and a wall clock past the
fill-up time B*T: of B+1 calls at the same instant the first B admit
(LimitReached is false) and the (B+1)th reports the limit reached; after
waiting 1/R = T more seconds (within the bucket's cache TTL), exactly one
further call admits and the next one is rejected again. -/
theorem C2_token_bucket_admits_exactly_burst
    (lmt : Limiter) (key : String) (B : ℕ) (T E t : ℚ)
    (hB : 1 ≤ B)
    (hmax : lmt.max = (B : ℤ))
    (httl : lmt.ttl = T) (hT : 0 < T)
    (hE : lmt.defaultExpirationTTL = E) (hE0 : 0 < E) (hTE : T ≤ E)
    (hfresh : assocGet lmt.tokenBuckets key = none)
    (ht : (B : ℚ) * T ≤ t) :
    (callSeq lmt key (List.replicate (B + 1) t ++ [t + T, t + T])).1
      = List.replicate B false ++ [true, false, true] := by
  have hBQ : (1 : ℚ) ≤ (B : ℚ) := by exact_mod_cast hB
  have hBZ : (1 : ℤ) ≤ (B : ℤ) := by exact_mod_cast hB
  have hnex : ¬(0 < t + E ∧ t + E < t) := by
    rintro ⟨_, hc⟩
    linarith
  have hnexT : ¬(0 < t + E ∧ t + E < t + T) := by
    rintro ⟨_, hc⟩
    linarith
  -- the first call creates the bucket full and consumes one token
  have hmiss : cacheGet lmt.tokenBuckets key t = none := by
    unfold cacheGet
    rw [hfresh]
  have hens : bucketsAfterEnsure lmt key 0 t
      = assocSet lmt.tokenBuckets key
          { bucket := rateNewLimiter (rateEvery T) (B : ℤ), expiration := t + E } := by
    unfold bucketsAfterEnsure
    rw [hmiss, httl, hmax, hE]
    unfold cacheSet
    simp [hE0]
  have hfound1 : cacheGet (bucketsAfterEnsure lmt key 0 t) key t
      = some { bucket := rateNewLimiter (rateEvery T) (B : ℤ), expiration := t + E } := by
    rw [hens]
    exact cacheGet_some _ _ _ _ (assocGet_assocSet_self _ _ _) hnex
  have hallow1 : allowOne (rateNewLimiter (rateEvery T) (B : ℤ)) t
      = (true, { limit := 1 / T, burst := (B : ℤ), tokens := (B : ℚ) - 1, last := t }) := by
    unfold allowOne advance rateNewLimiter rateEvery
    have hBd : (B : ℚ) ≤ t * (1 / T) := by
      rw [mul_one_div, le_div_iff₀ hT]
      exact ht
    simp only
    rw [zero_add, sub_zero]
    rw [min_eq_left (by exact_mod_cast hBd)]
    rw [if_pos ⟨hBZ, by push_cast; linarith⟩]
    rfl
  have hlr1 : LimitReached lmt key t
      = (false,
         { lmt with
             tokenBuckets := assocSet lmt.tokenBuckets key
               { bucket := { limit := 1 / T, burst := (B : ℤ), tokens := (B : ℚ) - 1, last := t },
                 expiration := t + E } }) := by
    rw [limitReached_found_after_ensure lmt key t _ hfound1, hallow1, hens, assocSet_assocSet]
    rfl
  -- drain the remaining B - 1 tokens at the same instant
  have hcast : ((B - 1 : ℕ) : ℚ) = (B : ℚ) - 1 := by
    push_cast [hB]
    ring
  have hdrain := callSeq_drain key lmt.tokenBuckets (1 / T) (t + E) t (B : ℤ) hBZ hnex
    (B - 1)
    { lmt with
        tokenBuckets := assocSet lmt.tokenBuckets key
          { bucket := { limit := 1 / T, burst := (B : ℤ), tokens := (B : ℚ) - 1, last := t },
            expiration := t + E } }
    (by rw [hcast]; push_cast; linarith)
    (by rw [hcast])
  -- assemble: first call, drain, same-instant rejection, refill, rejection
  have hBs : B - 1 + 1 = B := Nat.succ_pred_eq_of_pos hB
  have hrep : List.replicate B t = List.replicate (B - 1) t ++ [t] := by
    conv_lhs => rw [← hBs]
    rw [List.replicate_succ']
  have hrepF : List.replicate B false = false :: List.replicate (B - 1) false := by
    conv_lhs => rw [← hBs]
    rw [List.replicate_succ]
  have hsplit2 : List.replicate (B + 1) t ++ [t + T, t + T]
      = (t :: List.replicate (B - 1) t) ++ [t, t + T, t + T] := by
    rw [List.replicate_succ, hrep]
    simp
  have hxs1 : callSeq lmt key (t :: List.replicate (B - 1) t)
      = (false :: List.replicate (B - 1) false,
         { lmt with
             tokenBuckets := assocSet lmt.tokenBuckets key
               { bucket := { limit := 1 / T, burst := (B : ℤ), tokens := 0, last := t },
                 expiration := t + E } }) := by
    simp only [callSeq, hlr1, hdrain]
  have htail := callSeq_tail
    { lmt with
        tokenBuckets := assocSet lmt.tokenBuckets key
          { bucket := { limit := 1 / T, burst := (B : ℤ), tokens := 0, last := t },
            expiration := t + E } }
    lmt.tokenBuckets key T E t (B : ℤ) hBZ hT hnex hnexT rfl
  have happ := callSeq_append key (t :: List.replicate (B - 1) t) [t, t + T, t + T] lmt
  rw [hsplit2, happ, hxs1]
  simp only [htail, hrepF, List.cons_append]

/-- C2 witness: a max-2, TTL-1-second limiter on a fresh key at instant 2
admits exactly two same-instant calls, rejects the third, admits exactly one
more after one second, and rejects again. -/
theorem C2_witness :
    (callSeq lmtC2 "k" (List.replicate (2 + 1) (2 : ℚ) ++ [2 + 1, 2 + 1])).1
      = List.replicate 2 false ++ [true, false, true] :=
  C2_token_bucket_admits_exactly_burst lmtC2 "k" 2 1 10 2
    (by norm_num) (by norm_num [lmtC2, New]) rfl (by norm_num)
    (by norm_num [lmtC2, New]) (by norm_num) (by norm_num) rfl (by norm_num)

/-- C6. A rejecting run of `LimitByRequest`'s key loop stops at the first key
whose bucket rejects: the keys split into an admitted prefix, the rejecting
key, and an untouched suffix; the returned error carries the limiter's
configured message and status code; and every subsequent key whose joined
string is not among the processed ones keeps exactly the bucket binding it
had before the request. -/
theorem C6_first_rejecting_key_short_circuits (now : ℚ)
    (ks : List (List String)) (lmt lf : Limiter) (e : HTTPError)
    (h : limitKeysLoop lmt now ks = (some e, lf)) :
    e.message = lmt.message ∧ e.statusCode = lmt.statusCode ∧
    ∃ pre kbad post stPre,
      ks = pre ++ kbad :: post ∧
      limitKeysLoop lmt now pre = (none, stPre) ∧
      LimitByKeys stPre kbad now = (some e, lf) ∧
      ∀ s, s ∈ post → joinKey s ∉ (pre ++ [kbad]).map joinKey →
        assocGet lf.tokenBuckets (joinKey s)
          = assocGet lmt.tokenBuckets (joinKey s) := by
  rcases limitKeysLoop_reject_inv now ks lmt lf e h with
    ⟨hm, hs, _, pre, kbad, post, stPre, hsplit, hpre, hbad, hframe⟩
  exact ⟨hm, hs, pre, kbad, post, stPre, hsplit, hpre, hbad,
    fun s _ hns => hframe s hns⟩

/-- C6 witness: against a zero-burst limiter, the two-key list is rejected at
its first key, [["a"]] forms the processed prefix, and key "b" keeps its
(absent) bucket binding. -/
theorem C6_witness :
    HTTPError.message
        { message := "You have reached maximum request limit.", statusCode := 429 }
      = lmtZero.message ∧
    HTTPError.statusCode
        { message := "You have reached maximum request limit.", statusCode := 429 }
      = lmtZero.statusCode ∧
    ∃ pre kbad post stPre,
      [["a"], ["b"]] = pre ++ kbad :: post ∧
      limitKeysLoop lmtZero 1 pre = (none, stPre) ∧
      LimitByKeys stPre kbad 1
        = (some { message := "You have reached maximum request limit.", statusCode := 429 },
           (limitKeysLoop lmtZero 1 [["a"], ["b"]]).2) ∧
      ∀ s, s ∈ post → joinKey s ∉ (pre ++ [kbad]).map joinKey →
        assocGet (limitKeysLoop lmtZero 1 [["a"], ["b"]]).2.tokenBuckets (joinKey s)
          = assocGet lmtZero.tokenBuckets (joinKey s) := by
  have h1 : (limitKeysLoop lmtZero 1 [["a"], ["b"]]).1
      = some { message := "You have reached maximum request limit.", statusCode := 429 } := by
    norm_num [limitKeysLoop, LimitByKeys, LimitReached, limitReachedWithTokenBucketTTL,
      bucketsAfterEnsure, cacheGet, cacheSet, assocGet, assocSet, rateNewLimiter,
      rateEvery, allowOne, advance, lmtZero, lmtFix, New]
  have h : limitKeysLoop lmtZero 1 [["a"], ["b"]]
      = (some { message := "You have reached maximum request limit.", statusCode := 429 },
         (limitKeysLoop lmtZero 1 [["a"], ["b"]]).2) := by
    rw [← h1]
  exact C6_first_rejecting_key_short_circuits 1 [["a"], ["b"]] lmtZero _ _ h

/-- C7. In the in-memory counter store, an entry whose expiration instant has
passed behaves as not found on lookup even before the sweep removes it
(`GetItem` misses, `Get` reports -1 and false), and a subsequent `IncrBy`
installs a fresh item whose count starts at the increment amount; an entry
that has not expired is returned with its expiration refreshed to
`now + ttl` (sliding TTL), both in the returned item and in the map. -/
theorem C7_lazy_expiration_and_sliding_ttl
    (m : InMemory) (key : String) (it : InMemoryItem) (e now ttl : ℚ)
    (num : ℤ) (hfind : assocGet m key = some it) (hexp : it.expires = some e) :
    (e < now →
      (GetItem m key now).1 = none ∧
      (storageGet m key now).1 = (-1, false) ∧
      assocGet (IncrBy m key num ttl now) key
        = some { count := num, ttl := ttl, expires := some (now + ttl) }) ∧
    (¬ e < now →
      (GetItem m key now).1 = some { it with expires := some (now + it.ttl) } ∧
      assocGet (GetItem m key now).2 key
        = some { it with expires := some (now + it.ttl) }) := by
  constructor
  · intro hlt
    have hg : GetItem m key now = (none, m) := by
      unfold GetItem
      rw [hfind]
      simp [itemExpired, hexp, hlt]
    refine ⟨by rw [hg], ?_, ?_⟩
    · unfold storageGet
      rw [hg]
    · unfold IncrBy
      rw [hg]
      exact assocGet_assocSet_self m key _
  · intro hge
    have hg : GetItem m key now
        = (some (itemTouch it now), assocSet m key (itemTouch it now)) := by
      unfold GetItem
      rw [hfind]
      simp [itemExpired, hexp, hge]
    refine ⟨by rw [hg]; rfl, ?_⟩
    rw [hg]
    show assocGet (assocSet m key (itemTouch it now)) key = _
    rw [assocGet_assocSet_self m key _]
    rfl

/-- C7 witness: a count-7 item with TTL 1 expiring at instant 2. At instant 4
it is reported missing and `IncrBy 1` restarts the count at 1 with a fresh
expiration; at instant 2 it is found with its expiration slid to 2 + 1. -/
theorem C7_witness :
    (GetItem [("k", { count := 7, ttl := 1, expires := some 2 })] "k" 4).1
      = none ∧
    assocGet
      (IncrBy [("k", { count := 7, ttl := 1, expires := some 2 })] "k" 1 1 4)
      "k" = some { count := 1, ttl := 1, expires := some (4 + 1) } ∧
    (GetItem [("k", { count := 7, ttl := 1, expires := some 2 })] "k" 2).1
      = some { count := 7, ttl := 1, expires := some (2 + 1) } := by
  have h4 := C7_lazy_expiration_and_sliding_ttl
    [("k", { count := 7, ttl := 1, expires := some 2 })] "k"
    { count := 7, ttl := 1, expires := some 2 } 2 4 1 1 rfl rfl
  have h2 := C7_lazy_expiration_and_sliding_ttl
    [("k", { count := 7, ttl := 1, expires := some 2 })] "k"
    { count := 7, ttl := 1, expires := some 2 } 2 2 1 1 rfl rfl
  exact ⟨(h4.1 (by norm_num)).1, (h4.1 (by norm_num)).2.2,
    (h2.2 (by norm_num)).1⟩

/-- C9. One pass of the `LimitHandler` middleware: when the admission check
rejects, the limit-reached callback runs exactly once, the configured
content type is added once, the configured status code and message are
written once each, and the next handler does not run; when the check admits,
the callback does not run and the next handler runs exactly once. -/
theorem C9_handler_actions (lmt lmtF : Limiter) (r : Request) (now : ℚ)
    (tr : HandlerTranscript)
    (h : LimitHandler lmt r now = some (tr, lmtF)) :
    ((∃ e, LimitByRequest lmt r now = some (some e, lmtF)) →
      tr.onLimitReachedCalls = 1 ∧
      tr.contentTypeAdds = [lmt.messageContentType] ∧
      tr.statusWrites = [lmt.statusCode] ∧
      tr.bodyWrites = [lmt.message] ∧
      tr.nextCalls = 0) ∧
    (LimitByRequest lmt r now = some (none, lmtF) →
      tr.onLimitReachedCalls = 0 ∧ tr.nextCalls = 1) := by
  unfold LimitHandler at h
  cases hlr : LimitByRequest lmt r now with
  | none => rw [hlr] at h; simp at h
  | some pair =>
    rw [hlr] at h
    rcases pair with ⟨oe, l1⟩
    cases oe with
    | some e0 =>
      simp only [Option.some.injEq, Prod.mk.injEq] at h
      rcases h with ⟨htr, hlf⟩
      have hloop : ∃ sliceKeys, limitKeysLoop lmt now sliceKeys = (some e0, l1) := by
        have hlr2 := hlr
        unfold LimitByRequest at hlr2
        cases hbk : BuildKeys lmt r with
        | none => rw [hbk] at hlr2; cases hlr2
        | some sliceKeys =>
          rw [hbk] at hlr2
          exact ⟨sliceKeys, Option.some.inj hlr2⟩
      rcases hloop with ⟨sliceKeys, hloop⟩
      rcases limitKeysLoop_reject_inv now sliceKeys lmt l1 e0 hloop with
        ⟨hm, hs, ⟨bk, hbk1⟩, _⟩
      constructor
      · intro _
        refine ⟨by rw [← htr], ?_, ?_, ?_, by rw [← htr]⟩
        · rw [← htr]
          show [l1.messageContentType] = _
          rw [hbk1]
        · rw [← htr]
          show [e0.statusCode] = _
          rw [hs]
        · rw [← htr]
          show [e0.message] = _
          rw [hm]
      · intro hcon
        simp at hcon
    | none =>
      simp only [Option.some.injEq, Prod.mk.injEq] at h
      rcases h with ⟨htr, hlf⟩
      constructor
      · rintro ⟨e, hcon⟩
        simp at hcon
      · intro _
        rw [← htr]
        exact ⟨rfl, rfl⟩

/-- C9 witness: a GET against the zero-burst limiter is rejected; its
transcript runs the callback once, adds the configured content type once,
writes the configured status and message once, and never calls the next
handler. -/
theorem C9_witness :
    ((∃ e, LimitByRequest lmtZero reqGet 1 = some (some e, lmtZeroAfter)) →
      trReject.onLimitReachedCalls = 1 ∧
      trReject.contentTypeAdds = [lmtZero.messageContentType] ∧
      trReject.statusWrites = [lmtZero.statusCode] ∧
      trReject.bodyWrites = [lmtZero.message] ∧
      trReject.nextCalls = 0) ∧
    (LimitByRequest lmtZero reqGet 1 = some (none, lmtZeroAfter) →
      trReject.onLimitReachedCalls = 0 ∧ trReject.nextCalls = 1) := by
  have hbk : BuildKeys lmtZero reqGet
      = some [["127.0.0.1", "/doesntmatter", "", "", "", ""]] := by
    decide
  have hloop : limitKeysLoop lmtZero 1 [["127.0.0.1", "/doesntmatter", "", "", "", ""]]
      = (some { message := "You have reached maximum request limit.", statusCode := 429 },
         lmtZeroAfter) := by
    norm_num [limitKeysLoop, LimitByKeys, LimitReached, limitReachedWithTokenBucketTTL,
      bucketsAfterEnsure, cacheGet, cacheSet, assocGet, assocSet, rateNewLimiter,
      rateEvery, allowOne, advance, lmtZero, lmtFix, New, lmtZeroAfter, keyDefault]
  have h : LimitHandler lmtZero reqGet 1 = some (trReject, lmtZeroAfter) := by
    unfold LimitHandler LimitByRequest
    rw [hbk]
    simp only [hloop]
    simp [trReject, lmtZeroAfter, lmtZero, lmtFix, New]
  exact C9_handler_actions lmtZero lmtZeroAfter reqGet 1 trReject h

end Tollbooth
